import Mathlib

/-
Verification of the GCS published-storage adapter (package gcs, file public.go).

The Go module is a thin adapter from filesystem-shaped calls to an object
storage client.  We embed it shallowly:

  - the external storage service is a World: a finite association list from
    bucket name to a bucket, a bucket being an association list from object
    key to Obj (content, MD5 attribute rendered as lowercase hex, metadata);
  - the client primitives (write, delete, copy, attrs, metadata update,
    list-by-prefix) follow the abstract collaborator contract: they fail with
    bucketNotExist when the bucket is absent and objectNotExist when the
    object is absent, and succeed otherwise;
  - Go errors are values compared by identity against sentinels; we model
    them as an inductive type, with wrap for github.com/pkg/errors wrapping
    (errors.Wrap / errors.WithMessagef) and errorf for fmt.Errorf;
  - the MD5 computed by the service on upload is abstracted as an explicit
    hash-function argument md5hex (content to lowercase hex string);
  - filepath.Join / path.Clean are embedded as goJoin / goClean below,
    faithful to the Go standard library lexical-cleaning algorithm;
  - each method of PublishedStorage becomes a function taking and returning
    the World and the PublishedStorage value (the receiver holds the mutable
    pathCache), plus its payload or error.
-/

deriving instance DecidableEq for Except

namespace Gcs

/-- Association-list lookup, first binding wins (Go map read returns the
unique binding; buckets and caches have unique keys). -/
def lookupA {α : Type} : List (String × α) → String → Option α
  | [], _ => none
  | (k, v) :: rest, key => if k = key then some v else lookupA rest key

/-- Association-list insert-or-replace (Go map write). -/
def insertA {α : Type} : List (String × α) → String → α → List (String × α)
  | [], key, v => [(key, v)]
  | (k, w) :: rest, key, v =>
    if k = key then (key, v) :: rest else (k, w) :: insertA rest key v

/-- Association-list removal of a key (object deletion). -/
def eraseA {α : Type} : List (String × α) → String → List (String × α)
  | [], _ => []
  | (k, v) :: rest, key =>
    if k = key then eraseA rest key else (k, v) :: eraseA rest key

/-- Split of a character list at a separator character, keeping empty parts,
as strings.Split does. -/
def splitChar (c : Char) (l : List Char) : List (List Char) :=
  l.foldr
    (fun ch acc =>
      match acc with
      | [] => [[ch]]
      | a :: rest => if ch = c then [] :: a :: rest else (ch :: a) :: rest)
    [[]]

/-- One step of the lexical path cleaning of path.Clean: empty and dot parts
are dropped, dot-dot pops the stack unless rooted at the top. -/
def cleanStep (rooted : Bool) (stack : List (List Char)) (part : List Char) : List (List Char) :=
  if part = [] ∨ part = ['.'] then stack
  else if part = ['.', '.'] then
    match stack with
    | top :: rest => if top = ['.', '.'] then part :: stack else rest
    | [] => if rooted then [] else [['.', '.']]
  else part :: stack

/-- Interleave path parts with the slash separator. -/
def joinParts : List (List Char) → List Char
  | [] => []
  | [p] => p
  | p :: rest => p ++ '/' :: joinParts rest

/-- Embedding of path.Clean from the Go standard library (Unix rules, as
used by filepath.Clean on the target platform): repeated slashes collapse,
single dots drop, dot-dots resolve lexically. -/
def goClean (s : String) : String :=
  if s = "" then "."
  else
    let cs := s.data
    let rooted := cs.head? = some '/'
    let stack := ((splitChar '/' cs).foldl (cleanStep rooted) []).reverse
    let out := joinParts stack
    if rooted then String.mk ('/' :: out)
    else if out = [] then "." else String.mk out

/-- Embedding of filepath.Join: the elements from the first non-empty one
are joined with slashes and the result is cleaned. -/
def goJoin : List String → String
  | [] => ""
  | e :: rest =>
    if e = "" then goJoin rest
    else goClean (String.mk (joinParts ((e :: rest).map String.data)))

/-- Go error values.  Sentinel comparison with == in Go is modelled by
propositional equality of this type; wrap corresponds to the wrapping
combinators of github.com/pkg/errors and errorf to fmt.Errorf. -/
inductive GErr where
  | bucketNotExist
  | objectNotExist
  | osError (msg : String)
  | errorf (msg : String)
  | wrap (msg : String) (cause : GErr)
deriving DecidableEq

/-- Rendering of an error with the Error method, used where Go formats an
error with a percent-s verb (apostrophes of the original sentinel texts are
elided). -/
def errString : GErr → String
  | GErr.bucketNotExist => "storage: bucket does not exist"
  | GErr.objectNotExist => "storage: object does not exist"
  | GErr.osError m => m
  | GErr.errorf m => m
  | GErr.wrap m e => m ++ ": " ++ errString e

/-- Whether an error is a wrapping of some cause with the given context
message. -/
def isWrappedWith (e : GErr) (c : String) : Bool :=
  match e with
  | GErr.wrap m _ => m == c
  | _ => false

/-- A stored object: content bytes, the MD5 attribute already rendered as a
lowercase hex string, and the metadata map. -/
structure Obj where
  content : String
  md5 : String
  metadata : List (String × String)
deriving DecidableEq

/-- The external object-storage service: buckets by name, each a map from
object key to object. -/
structure World where
  buckets : List (String × List (String × Obj))
deriving DecidableEq

/-- Lookup of an object across the service, for stating theorems. -/
def lookupObj (w : World) (bucket key : String) : Option Obj :=
  match lookupA w.buckets bucket with
  | none => none
  | some objs => lookupA objs key

/-- Client primitive: create-or-replace write of an object (NewWriter, Copy,
Close); the service computes the MD5 attribute from the content and a fresh
object carries no metadata. -/
def writeObject (md5hex : String → String) (w : World) (bucket key content : String) :
    Except GErr World :=
  match lookupA w.buckets bucket with
  | none => Except.error GErr.bucketNotExist
  | some objs =>
    Except.ok ⟨insertA w.buckets bucket (insertA objs key ⟨content, md5hex content, []⟩)⟩

/-- Client primitive: object deletion (ObjectHandle.Delete). -/
def deleteObject (w : World) (bucket key : String) : Except GErr World :=
  match lookupA w.buckets bucket with
  | none => Except.error GErr.bucketNotExist
  | some objs =>
    match lookupA objs key with
    | none => Except.error GErr.objectNotExist
    | some _ => Except.ok ⟨insertA w.buckets bucket (eraseA objs key)⟩

/-- Client primitive: server-side copy (CopierFrom.Run); the destination
receives the full source object, metadata included. -/
def copyObject (w : World) (bucket srcKey dstKey : String) : Except GErr World :=
  match lookupA w.buckets bucket with
  | none => Except.error GErr.bucketNotExist
  | some objs =>
    match lookupA objs srcKey with
    | none => Except.error GErr.objectNotExist
    | some o => Except.ok ⟨insertA w.buckets bucket (insertA objs dstKey o)⟩

/-- Client primitive: attribute fetch (ObjectHandle.Attrs). -/
def getAttrs (w : World) (bucket key : String) : Except GErr Obj :=
  match lookupA w.buckets bucket with
  | none => Except.error GErr.bucketNotExist
  | some objs =>
    match lookupA objs key with
    | none => Except.error GErr.objectNotExist
    | some o => Except.ok o

/-- Client primitive: metadata replacement (Update with ObjectAttrsToUpdate
carrying a Metadata map). -/
def updateMetadata (w : World) (bucket key : String) (md : List (String × String)) :
    Except GErr World :=
  match lookupA w.buckets bucket with
  | none => Except.error GErr.bucketNotExist
  | some objs =>
    match lookupA objs key with
    | none => Except.error GErr.objectNotExist
    | some o =>
      Except.ok ⟨insertA w.buckets bucket (insertA objs key ⟨o.content, o.md5, md⟩)⟩

/-- Whether a string has the given starting segment, as strings.HasPrefix
and the Prefix field of a storage listing query use it. -/
def startsWithG (s p : String) : Bool :=
  p.data.isPrefixOf s.data

/-- Byte-slicing a string from an index, as the Go expression name with the
leading part of the given length removed. -/
def dropStr (s : String) (n : Nat) : String :=
  String.mk (s.data.drop n)

/-- Client primitive: listing of the objects of a bucket whose key starts
with the query string, in stored order, yielding key and hex MD5 (the hex
rendering is folded into the stored attribute). -/
def listObjects (w : World) (bucket keyQuery : String) :
    Except GErr (List (String × String)) :=
  match lookupA w.buckets bucket with
  | none => Except.error GErr.bucketNotExist
  | some objs =>
    Except.ok ((objs.filter (fun p => startsWithG p.1 keyQuery)).map
      (fun p => (p.1, p.2.md5)))

/-- The PublishedStorage receiver.  The storage client field is replaced by
the explicit World argument of every operation; the configured path root
(field named prefix in the source, renamed pfx here) and the bucket name are
immutable; pathCache is the lazily built map from relative path to hex MD5,
nil until first needed. -/
structure PublishedStorage where
  bucketName : String
  pfx : String
  pathCache : Option (List (String × String))
deriving DecidableEq

/-- Checksum descriptor of a pool source; only the MD5 hex digest is read by
this module. -/
structure ChecksumInfo where
  MD5 : String
deriving DecidableEq

/-- The String method of PublishedStorage. -/
def storageString (s : PublishedStorage) : String :=
  "GCS: " ++ s.bucketName ++ ":" ++ s.pfx

/-- Message of the fmt.Errorf in Remove. -/
def removeErrMsg (key : String) (s : PublishedStorage) (e : GErr) : String :=
  "error deleting " ++ key ++ " from " ++ storageString s ++ ": " ++ errString e

/-- Message of the fmt.Errorf in the deletion loop of RemoveDirs. -/
def removeDirsErrMsg (name : String) (s : PublishedStorage) (e : GErr) : String :=
  "error deleting path " ++ name ++ " from " ++ storageString s ++ ": " ++ errString e

/-- Message of the errors.WithMessagef wrapping in internalFilelist. -/
def listErrMsg (p : String) (s : PublishedStorage) (e : GErr) : String :=
  "error listing under prefix " ++ p ++ " in " ++ storageString s ++ ": " ++ errString e

/-- Context message of the errors.Wrap in PutFile. -/
def putFileMsg (sourceFilename : String) (s : PublishedStorage) : String :=
  "error uploading " ++ sourceFilename ++ " to " ++ storageString s

/-- Message of the conflict fmt.Errorf in LinkFromPool. -/
def conflictMsg (poolPath : String) (s : PublishedStorage)
    (destinationMD5 sourceMD5 : String) : String :=
  "error putting file to " ++ poolPath ++ ": file already exists and is different: "
    ++ storageString s ++ " " ++ destinationMD5 ++ " " ++ sourceMD5

/-- Context message of the errors.Wrap on upload failure in LinkFromPool. -/
def lfpUploadMsg (sourcePath : String) (s : PublishedStorage) (poolPath : String) : String :=
  "error uploading " ++ sourcePath ++ " to " ++ storageString s ++ ": " ++ poolPath

/-- Message of the fmt.Errorf in SymLink (both failure points format the
same way). -/
def symlinkErrMsg (src dst : String) (s : PublishedStorage) (e : GErr) : String :=
  "error symlinking " ++ src ++ " -> " ++ dst ++ " in " ++ storageString s
    ++ ": " ++ errString e

/-- Message of the fmt.Errorf in ReadLink when the SymLink metadata entry is
absent; the err formatted there is nil, which the percent-s verb renders as
the Go nil-value notice. -/
def readlinkErrMsg (path : String) (s : PublishedStorage) : String :=
  "error getting information about " ++ path ++ " from " ++ storageString s
    ++ ": %!s(<nil>)"

/-- Failure of os.Open on a missing local file. -/
def osOpenMsg (name : String) : String :=
  "open " ++ name ++ ": no such file or directory"

/-- MkDir: a no-op. -/
def MkDir (w : World) (s : PublishedStorage) (_path : String) :
    World × PublishedStorage × Option GErr :=
  (w, s, none)

/-- Lower-case putFile: stream a byte source to the object at the key formed
by joining the storage root with the path. -/
def putFile (md5hex : String → String) (w : World) (s : PublishedStorage)
    (path content : String) : World × Option GErr :=
  let key := goJoin [s.pfx, path]
  match writeObject md5hex w s.bucketName key content with
  | Except.error e => (w, some e)
  | Except.ok w1 => (w1, none)

/-- PutFile: open the local source (the local filesystem is an association
list from filename to content), upload it, and wrap only the upload error
with the uploading context; the open error is returned as-is. -/
def PutFile (md5hex : String → String) (w : World) (s : PublishedStorage)
    (localFs : List (String × String)) (path sourceFilename : String) :
    World × PublishedStorage × Option GErr :=
  match lookupA localFs sourceFilename with
  | none => (w, s, some (GErr.osError (osOpenMsg sourceFilename)))
  | some content =>
    match putFile md5hex w s path content with
    | (w1, none) => (w1, s, none)
    | (_, some e) => (w, s, some (GErr.wrap (putFileMsg sourceFilename s) e))

/-- Remove: delete the object at the mapped key; a bucket-not-exist error
from the client is ignored, any other error becomes a flat fmt.Errorf. -/
def Remove (w : World) (s : PublishedStorage) (path : String) :
    World × PublishedStorage × Option GErr :=
  let key := goJoin [s.pfx, path]
  match deleteObject w s.bucketName key with
  | Except.ok w1 => (w1, s, none)
  | Except.error e =>
    if e = GErr.bucketNotExist then (w, s, none)
    else (w, s, some (GErr.errorf (removeErrMsg key s e)))

/-- internalFilelist: join the storage root with the queried prefix, append
a slash when the result is non-empty, list the bucket under it, and return
the keys with that full query removed together with the hex MD5 values; a
listing error is wrapped with the listing context. -/
def internalFilelist (w : World) (s : PublishedStorage) (p0 : String) :
    Except GErr (List String × List String) :=
  let p1 := goJoin [s.pfx, p0]
  let p := if p1 = "" then p1 else p1 ++ "/"
  match listObjects w s.bucketName p with
  | Except.error e => Except.error (GErr.wrap (listErrMsg p s e) e)
  | Except.ok entries =>
    Except.ok
      (entries.map (fun kv => if p = "" then kv.1 else dropStr kv.1 p.length),
       entries.map (fun kv => kv.2))

/-- Filelist: the paths component of internalFilelist. -/
def Filelist (w : World) (s : PublishedStorage) (p0 : String) :
    World × PublishedStorage × Except GErr (List String) :=
  match internalFilelist w s p0 with
  | Except.error e => (w, s, Except.error e)
  | Except.ok pm => (w, s, Except.ok pm.1)

/-- Deletion loop of RemoveDirs: each listed name is joined with the storage
root and the directory path and handed to Remove; the first failure aborts
with a flat fmt.Errorf. -/
def removeDirsLoop (w : World) (s : PublishedStorage) (path : String) :
    List String → World × PublishedStorage × Option GErr
  | [] => (w, s, none)
  | f :: rest =>
    match Remove w s (goJoin [s.pfx, path, f]) with
    | (w1, s1, none) => removeDirsLoop w1 s1 path rest
    | (w1, s1, some e) => (w1, s1, some (GErr.errorf (removeDirsErrMsg f s1 e)))

/-- RemoveDirs: list under the path, then delete each result; an error from
the listing is returned unless it is identically the bucket-not-exist
sentinel (internalFilelist in fact always wraps, see the theorems). -/
def RemoveDirs (w : World) (s : PublishedStorage) (path : String) :
    World × PublishedStorage × Option GErr :=
  match internalFilelist w s path with
  | Except.error e =>
    if e = GErr.bucketNotExist then (w, s, none) else (w, s, some e)
  | Except.ok pm => removeDirsLoop w s path pm.1

/-- Lazy population of the path cache in LinkFromPool: an existing cache is
reused, otherwise one full listing under the storage root is recorded into
a fresh map. -/
def cacheOrBuild (w : World) (s : PublishedStorage) :
    Except GErr (List (String × String)) :=
  match s.pathCache with
  | some cache => Except.ok cache
  | none =>
    match internalFilelist w s "" with
    | Except.error e => Except.error (GErr.wrap "error caching paths under prefix" e)
    | Except.ok pm =>
      Except.ok ((pm.1.zip pm.2).foldl (fun m kv => insertA m kv.1 kv.2) [])

/-- Upload tail of LinkFromPool: open the pool source (the pool is an
association list from source path token to content), upload it under the
relative path, and on success record the declared source MD5 in the cache;
an upload failure is wrapped, an open failure is returned as-is. -/
def linkUpload (md5hex : String → String) (w : World) (s : PublishedStorage)
    (cache : List (String × String)) (pool : List (String × String))
    (relPath poolPath sourcePath sourceMD5 : String) :
    World × PublishedStorage × Option GErr :=
  match lookupA pool sourcePath with
  | none =>
    (w, { s with pathCache := some cache }, some (GErr.osError (osOpenMsg sourcePath)))
  | some content =>
    match putFile md5hex w s relPath content with
    | (w1, none) =>
      (w1, { s with pathCache := some (insertA cache relPath sourceMD5) }, none)
    | (_, some e) =>
      (w, { s with pathCache := some cache },
       some (GErr.wrap (lfpUploadMsg sourcePath s poolPath) e))

/-- Checksum comparison of LinkFromPool once the cache is available,
mirroring the three guarded returns of the source before the upload. -/
def linkDecide (md5hex : String → String) (w : World) (s : PublishedStorage)
    (cache : List (String × String)) (pool : List (String × String))
    (relPath poolPath sourcePath sourceMD5 : String) (force : Bool) :
    World × PublishedStorage × Option GErr :=
  match lookupA cache relPath with
  | some destinationMD5 =>
    if sourceMD5 = "" then
      (w, { s with pathCache := some cache },
       some (GErr.errorf "unable to compare object, MD5 checksum missing"))
    else if destinationMD5 = sourceMD5 then
      (w, { s with pathCache := some cache }, none)
    else if force = false ∧ destinationMD5 ≠ sourceMD5 then
      (w, { s with pathCache := some cache },
       some (GErr.errorf (conflictMsg poolPath s destinationMD5 sourceMD5)))
    else linkUpload md5hex w s cache pool relPath poolPath sourcePath sourceMD5
  | none => linkUpload md5hex w s cache pool relPath poolPath sourcePath sourceMD5

/-- LinkFromPool: compute the relative and mapped destination paths, ensure
the cache, and run the decision of the source. -/
def LinkFromPool (md5hex : String → String) (w : World) (s : PublishedStorage)
    (pool : List (String × String)) (publishedDirectory fileName sourcePath : String)
    (sourceChecksums : ChecksumInfo) (force : Bool) :
    World × PublishedStorage × Option GErr :=
  let relPath := goJoin [publishedDirectory, fileName]
  let poolPath := goJoin [s.pfx, relPath]
  match cacheOrBuild w s with
  | Except.error e => (w, s, some e)
  | Except.ok cache =>
    linkDecide md5hex w s cache pool relPath poolPath sourcePath
      sourceChecksums.MD5 force

/-- RenameFile: server-side copy of the source key to the destination key,
then deletion of the source; both client errors are returned as-is. -/
def RenameFile (w : World) (s : PublishedStorage) (oldName newName : String) :
    World × PublishedStorage × Option GErr :=
  let sourcePath := goJoin [s.pfx, oldName]
  let destPath := goJoin [s.pfx, newName]
  match copyObject w s.bucketName sourcePath destPath with
  | Except.error e => (w, s, some e)
  | Except.ok w1 =>
    match deleteObject w1 s.bucketName sourcePath with
    | Except.error e => (w1, s, some e)
    | Except.ok w2 => (w2, s, none)

/-- The lower-case copy helper behind SymLink. -/
def copy (w : World) (s : PublishedStorage) (src dst : String) : Except GErr World :=
  copyObject w s.bucketName src dst

/-- SymLink: copy the source object to the destination and replace the
destination metadata with one SymLink entry holding the mapped source key;
either failure is rendered with the symlinking message. -/
def SymLink (w : World) (s : PublishedStorage) (src dst : String) :
    World × PublishedStorage × Option GErr :=
  let sourcePath := goJoin [s.pfx, src]
  let destPath := goJoin [s.pfx, dst]
  match copy w s sourcePath destPath with
  | Except.error e => (w, s, some (GErr.errorf (symlinkErrMsg src dst s e)))
  | Except.ok w1 =>
    match updateMetadata w1 s.bucketName destPath [("SymLink", sourcePath)] with
    | Except.error e => (w1, s, some (GErr.errorf (symlinkErrMsg src dst s e)))
    | Except.ok w2 => (w2, s, none)

/-- HardLink delegates to SymLink. -/
def HardLink (w : World) (s : PublishedStorage) (src dst : String) :
    World × PublishedStorage × Option GErr :=
  SymLink w s src dst

/-- FileExists: attribute fetch at the mapped key; object-not-exist yields
false without error, any other error propagates. -/
def FileExists (w : World) (s : PublishedStorage) (path : String) :
    World × PublishedStorage × Except GErr Bool :=
  let key := goJoin [s.pfx, path]
  match getAttrs w s.bucketName key with
  | Except.error e =>
    if e = GErr.objectNotExist then (w, s, Except.ok false)
    else (w, s, Except.error e)
  | Except.ok _ => (w, s, Except.ok true)

/-- ReadLink: attribute fetch at the mapped key, then the SymLink metadata
entry; its absence is an error. -/
def ReadLink (w : World) (s : PublishedStorage) (path : String) :
    World × PublishedStorage × Except GErr String :=
  let key := goJoin [s.pfx, path]
  match getAttrs w s.bucketName key with
  | Except.error e => (w, s, Except.error e)
  | Except.ok attrs =>
    match lookupA attrs.metadata "SymLink" with
    | some link => (w, s, Except.ok link)
    | none => (w, s, Except.error (GErr.errorf (readlinkErrMsg path s)))

/-! Association-list lemmas shared by the theorems below. -/

theorem lookupA_insertA_self {α : Type} (l : List (String × α)) (k : String) (v : α) :
    lookupA (insertA l k v) k = some v := by
  induction l with
  | nil => simp [insertA, lookupA]
  | cons p rest ih =>
    obtain ⟨a, b⟩ := p
    by_cases h : a = k
    · simp [insertA, h, lookupA]
    · simp [insertA, h, lookupA, ih]

theorem lookupA_insertA_ne {α : Type} (l : List (String × α)) (k k2 : String) (v : α)
    (h : k2 ≠ k) : lookupA (insertA l k v) k2 = lookupA l k2 := by
  have hk : k ≠ k2 := Ne.symm h
  induction l with
  | nil => simp [insertA, lookupA, hk]
  | cons p rest ih =>
    obtain ⟨a, b⟩ := p
    by_cases hp : a = k
    · subst hp
      simp [insertA, lookupA, hk]
    · simp [insertA, hp, lookupA, ih]

theorem lookupA_eraseA_self {α : Type} (l : List (String × α)) (k : String) :
    lookupA (eraseA l k) k = none := by
  induction l with
  | nil => simp [eraseA, lookupA]
  | cons p rest ih =>
    obtain ⟨a, b⟩ := p
    by_cases h : a = k
    · simp [eraseA, h, ih]
    · simp [eraseA, h, lookupA, ih]

theorem lookupA_eraseA_ne {α : Type} (l : List (String × α)) (k k2 : String)
    (h : k2 ≠ k) : lookupA (eraseA l k) k2 = lookupA l k2 := by
  induction l with
  | nil => simp [eraseA, lookupA]
  | cons p rest ih =>
    obtain ⟨a, b⟩ := p
    by_cases hp : a = k
    · subst hp
      simp [eraseA, lookupA, Ne.symm h, ih]
    · simp [eraseA, hp, lookupA, ih]

/-- Remove returns the receiver untouched in every branch. -/
theorem remove_storage_eq (w : World) (s : PublishedStorage) (path : String) :
    (Remove w s path).2.1 = s := by
  simp only [Remove]
  rcases h : deleteObject w s.bucketName (goJoin [s.pfx, path]) with e | w1
  · simp only [h]
    split <;> rfl
  · simp [h]

/-- The deletion loop of RemoveDirs returns the receiver untouched. -/
theorem removeDirsLoop_storage_eq (path : String) :
    ∀ (l : List String) (w : World) (s : PublishedStorage),
      (removeDirsLoop w s path l).2.1 = s
  | [], _, _ => rfl
  | f :: rest, w, s => by
    have hs := remove_storage_eq w s (goJoin [s.pfx, path, f])
    unfold removeDirsLoop
    rcases hRem : Remove w s (goJoin [s.pfx, path, f]) with ⟨w1, s1, e?⟩
    rw [hRem] at hs
    simp only at hs
    cases e? with
    | none => exact (removeDirsLoop_storage_eq path rest w1 s1).trans hs
    | some e => exact hs

/-- A cached destination whose hash equals the non-empty declared source MD5
makes LinkFromPool a successful no-op, for either force flag; shared by the
claims on de-duplication and on cache staleness. -/
theorem lfp_cached_hit (md5hex : String → String) (w : World) (s : PublishedStorage)
    (pool : List (String × String)) (dir file sp : String) (c : ChecksumInfo)
    (force : Bool) (m : List (String × String)) (h : String)
    (hc : s.pathCache = some m)
    (hl : lookupA m (goJoin [dir, file]) = some h)
    (hmd : c.MD5 = h) (hne : h ≠ "") :
    LinkFromPool md5hex w s pool dir file sp c force = (w, s, none) := by
  obtain ⟨bn, px, pc⟩ := s
  simp only [PublishedStorage.pathCache] at hc
  subst hc
  simp [LinkFromPool, cacheOrBuild, linkDecide, hl, hmd, hne]

/-- C1: with the path cache holding the destination relative path at exactly
the declared non-empty source MD5, LinkFromPool performs no upload, leaves
the service state and the cache unchanged, and returns success, for either
value of force. -/
theorem c1_linkFromPool_dedup_noop (md5hex : String → String) (w : World)
    (s : PublishedStorage) (pool : List (String × String)) (dir file sp : String)
    (c : ChecksumInfo) (force : Bool) (m : List (String × String)) (h : String)
    (hc : s.pathCache = some m)
    (hl : lookupA m (goJoin [dir, file]) = some h)
    (hmd : c.MD5 = h) (hne : h ≠ "") :
    LinkFromPool md5hex w s pool dir file sp c force = (w, s, none) :=
  lfp_cached_hit md5hex w s pool dir file sp c force m h hc hl hmd hne

/-- Witness for C1 at a concrete state, both force values. -/
theorem c1_linkFromPool_dedup_noop_witness :
    LinkFromPool (fun c => c) ⟨[("test", [])]⟩ ⟨"test", "", some [("d/f", "abc")]⟩
        [] "d" "f" "sp" ⟨"abc"⟩ false
      = (⟨[("test", [])]⟩, ⟨"test", "", some [("d/f", "abc")]⟩, none) ∧
    LinkFromPool (fun c => c) ⟨[("test", [])]⟩ ⟨"test", "", some [("d/f", "abc")]⟩
        [] "d" "f" "sp" ⟨"abc"⟩ true
      = (⟨[("test", [])]⟩, ⟨"test", "", some [("d/f", "abc")]⟩, none) :=
  ⟨c1_linkFromPool_dedup_noop (fun c => c) ⟨[("test", [])]⟩
      ⟨"test", "", some [("d/f", "abc")]⟩ [] "d" "f" "sp" ⟨"abc"⟩ false
      [("d/f", "abc")] "abc" rfl (by decide) rfl (by decide),
   c1_linkFromPool_dedup_noop (fun c => c) ⟨[("test", [])]⟩
      ⟨"test", "", some [("d/f", "abc")]⟩ [] "d" "f" "sp" ⟨"abc"⟩ true
      [("d/f", "abc")] "abc" rfl (by decide) rfl (by decide)⟩

/-- C4: with the path cache holding an entry for the destination relative
path and an empty declared source MD5, LinkFromPool fails with the missing
checksum error, for either force flag, leaving the service state and the
cache untouched. -/
theorem c4_linkFromPool_empty_md5_fails (md5hex : String → String) (w : World)
    (s : PublishedStorage) (pool : List (String × String)) (dir file sp : String)
    (c : ChecksumInfo) (force : Bool) (m : List (String × String)) (dh : String)
    (hc : s.pathCache = some m)
    (hl : lookupA m (goJoin [dir, file]) = some dh)
    (hmd : c.MD5 = "") :
    LinkFromPool md5hex w s pool dir file sp c force
      = (w, s, some (GErr.errorf "unable to compare object, MD5 checksum missing")) := by
  obtain ⟨bn, px, pc⟩ := s
  simp only [PublishedStorage.pathCache] at hc
  subst hc
  simp [LinkFromPool, cacheOrBuild, linkDecide, hl, hmd]

/-- Witness for C4 at a concrete state, both force values. -/
theorem c4_linkFromPool_empty_md5_fails_witness :
    LinkFromPool (fun c => c) ⟨[("test", [])]⟩ ⟨"test", "", some [("d/f", "abc")]⟩
        [("sp", "X")] "d" "f" "sp" ⟨""⟩ true
      = (⟨[("test", [])]⟩, ⟨"test", "", some [("d/f", "abc")]⟩,
         some (GErr.errorf "unable to compare object, MD5 checksum missing")) :=
  c4_linkFromPool_empty_md5_fails (fun c => c) ⟨[("test", [])]⟩
    ⟨"test", "", some [("d/f", "abc")]⟩ [("sp", "X")] "d" "f" "sp" ⟨""⟩ true
    [("d/f", "abc")] "abc" rfl (by decide) rfl

/-- The conflict message of LinkFromPool contains the destination hash, the
source hash, and the mapped destination key as substrings. -/
theorem conflictMsg_names (poolPath : String) (s : PublishedStorage) (dh sh : String) :
    List.IsInfix dh.data (conflictMsg poolPath s dh sh).data ∧
    List.IsInfix sh.data (conflictMsg poolPath s dh sh).data ∧
    List.IsInfix poolPath.data (conflictMsg poolPath s dh sh).data := by
  refine ⟨⟨("error putting file to " ++ poolPath
        ++ ": file already exists and is different: " ++ storageString s ++ " ").data,
      (" " ++ sh).data, ?_⟩,
    ⟨("error putting file to " ++ poolPath
        ++ ": file already exists and is different: " ++ storageString s ++ " "
        ++ dh ++ " ").data, [], ?_⟩,
    ⟨("error putting file to ").data,
      (": file already exists and is different: " ++ storageString s ++ " "
        ++ dh ++ " " ++ sh).data, ?_⟩⟩ <;>
    simp [conflictMsg, String.data_append, List.append_assoc]

/-- C3: a cached destination hash differing from the non-empty declared
source MD5 makes LinkFromPool with force off fail with the conflict error
naming both hashes and the mapped destination, uploading nothing and
changing nothing; with force on (and the pool source and the bucket
available) it uploads, the destination object then holds the new source
content, and the cache entry becomes the source MD5. -/
theorem c3_linkFromPool_conflict_and_force (md5hex : String → String) (w : World)
    (s : PublishedStorage) (pool : List (String × String)) (dir file sp : String)
    (c : ChecksumInfo) (m : List (String × String)) (dh : String)
    (hc : s.pathCache = some m)
    (hl : lookupA m (goJoin [dir, file]) = some dh)
    (hne : c.MD5 ≠ "") (hdiff : dh ≠ c.MD5) :
    (LinkFromPool md5hex w s pool dir file sp c false
       = (w, s, some (GErr.errorf
           (conflictMsg (goJoin [s.pfx, goJoin [dir, file]]) s dh c.MD5)))) ∧
    (List.IsInfix dh.data
        (conflictMsg (goJoin [s.pfx, goJoin [dir, file]]) s dh c.MD5).data ∧
     List.IsInfix c.MD5.data
        (conflictMsg (goJoin [s.pfx, goJoin [dir, file]]) s dh c.MD5).data ∧
     List.IsInfix (goJoin [s.pfx, goJoin [dir, file]]).data
        (conflictMsg (goJoin [s.pfx, goJoin [dir, file]]) s dh c.MD5).data) ∧
    (∀ content objs,
       lookupA pool sp = some content →
       lookupA w.buckets s.bucketName = some objs →
       LinkFromPool md5hex w s pool dir file sp c true
         = (⟨insertA w.buckets s.bucketName
               (insertA objs (goJoin [s.pfx, goJoin [dir, file]])
                 ⟨content, md5hex content, []⟩)⟩,
            { s with pathCache := some (insertA m (goJoin [dir, file]) c.MD5) },
            none) ∧
       lookupObj (LinkFromPool md5hex w s pool dir file sp c true).1 s.bucketName
           (goJoin [s.pfx, goJoin [dir, file]])
         = some ⟨content, md5hex content, []⟩) := by
  obtain ⟨bn, px, pc⟩ := s
  simp only [PublishedStorage.pathCache] at hc
  subst hc
  refine ⟨?_, conflictMsg_names _ _ _ _, ?_⟩
  · simp [LinkFromPool, cacheOrBuild, linkDecide, hl, hne, hdiff]
  · intro content objs hcontent hobjs
    have hmain : LinkFromPool md5hex w ⟨bn, px, some m⟩ pool dir file sp c true
        = (⟨insertA w.buckets bn
             (insertA objs (goJoin [px, goJoin [dir, file]])
               ⟨content, md5hex content, []⟩)⟩,
           ⟨bn, px, some (insertA m (goJoin [dir, file]) c.MD5)⟩, none) := by
      simp [LinkFromPool, cacheOrBuild, linkDecide, hl, hne, hdiff, linkUpload,
        hcontent, putFile, writeObject, hobjs]
    refine ⟨hmain, ?_⟩
    rw [hmain]
    simp [lookupObj, lookupA_insertA_self]

/-- Witness for C3 at a concrete state: force off yields the conflict error,
force on overwrites the destination and updates the cache. -/
theorem c3_linkFromPool_conflict_and_force_witness :
    LinkFromPool (fun c => c) ⟨[("test", [])]⟩ ⟨"test", "", some [("d/f", "old")]⟩
        [("sp", "Spam")] "d" "f" "sp" ⟨"new"⟩ false
      = (⟨[("test", [])]⟩, ⟨"test", "", some [("d/f", "old")]⟩,
         some (GErr.errorf (conflictMsg (goJoin ["", goJoin ["d", "f"]])
           ⟨"test", "", some [("d/f", "old")]⟩ "old" "new"))) ∧
    LinkFromPool (fun c => c) ⟨[("test", [])]⟩ ⟨"test", "", some [("d/f", "old")]⟩
        [("sp", "Spam")] "d" "f" "sp" ⟨"new"⟩ true
      = (⟨[("test", [("d/f", ⟨"Spam", "Spam", []⟩)])]⟩,
         ⟨"test", "", some [("d/f", "new")]⟩, none) := by
  have h := c3_linkFromPool_conflict_and_force (fun c => c) ⟨[("test", [])]⟩
    ⟨"test", "", some [("d/f", "old")]⟩ [("sp", "Spam")] "d" "f" "sp" ⟨"new"⟩
    [("d/f", "old")] "old" rfl (by decide) (by decide) (by decide)
  refine ⟨h.1, ?_⟩
  exact ((h.2.2 "Spam" [] rfl rfl).1).trans (by decide)

/-- C5 counterexample: when the local source file cannot be opened, PutFile
returns the open error exactly as the operating system produced it, not
wrapped with the uploading context, refuting the claim that every failing
PutFile call returns a wrapped error. -/
theorem c5_putFile_open_unwrapped_counterexample :
    (PutFile (fun c => c) ⟨[("test", [])]⟩ ⟨"test", "", none⟩ [] "a/b.txt" "src.deb").2.2
      = some (GErr.osError (osOpenMsg "src.deb")) ∧
    isWrappedWith (GErr.osError (osOpenMsg "src.deb"))
      (putFileMsg "src.deb" ⟨"test", "", none⟩) = false := by
  decide

/-- C5 amended: a storage-client failure during the upload comes back
wrapped with the uploading context and the service state is unchanged, and
a successful upload returns no error; a failure to open the local source is
returned unwrapped.  One open and at most one upload happen per call. -/
theorem c5_putFile_error_wrapping (md5hex : String → String) (w : World)
    (s : PublishedStorage) (localFs : List (String × String)) (path src : String) :
    (lookupA localFs src = none →
       PutFile md5hex w s localFs path src
         = (w, s, some (GErr.osError (osOpenMsg src)))) ∧
    (∀ content e, lookupA localFs src = some content →
       writeObject md5hex w s.bucketName (goJoin [s.pfx, path]) content
         = Except.error e →
       PutFile md5hex w s localFs path src
         = (w, s, some (GErr.wrap (putFileMsg src s) e))) ∧
    (∀ content w1, lookupA localFs src = some content →
       writeObject md5hex w s.bucketName (goJoin [s.pfx, path]) content
         = Except.ok w1 →
       PutFile md5hex w s localFs path src = (w1, s, none)) := by
  refine ⟨?_, ?_, ?_⟩
  · intro h
    simp [PutFile, h]
  · intro content e h hw
    simp [PutFile, h, putFile, hw]
  · intro content w1 h hw
    simp [PutFile, h, putFile, hw]

/-- Witness for the amended C5: the three cases at concrete states. -/
theorem c5_putFile_error_wrapping_witness :
    PutFile (fun c => c) ⟨[("test", [])]⟩ ⟨"test", "", none⟩ [] "x" "f"
      = (⟨[("test", [])]⟩, ⟨"test", "", none⟩,
         some (GErr.osError (osOpenMsg "f"))) ∧
    PutFile (fun c => c) ⟨[]⟩ ⟨"test", "", none⟩ [("f", "data")] "x" "f"
      = (⟨[]⟩, ⟨"test", "", none⟩,
         some (GErr.wrap (putFileMsg "f" ⟨"test", "", none⟩) GErr.bucketNotExist)) ∧
    PutFile (fun c => c) ⟨[("test", [])]⟩ ⟨"test", "", none⟩ [("f", "data")] "x" "f"
      = (⟨[("test", [("x", ⟨"data", "data", []⟩)])]⟩, ⟨"test", "", none⟩, none) := by
  refine ⟨(c5_putFile_error_wrapping (fun c => c) ⟨[("test", [])]⟩ ⟨"test", "", none⟩
      [] "x" "f").1 rfl,
    (c5_putFile_error_wrapping (fun c => c) ⟨[]⟩ ⟨"test", "", none⟩
      [("f", "data")] "x" "f").2.1 "data" GErr.bucketNotExist rfl rfl,
    ((c5_putFile_error_wrapping (fun c => c) ⟨[("test", [])]⟩ ⟨"test", "", none⟩
      [("f", "data")] "x" "f").2.2 "data" ⟨[("test", [("x", ⟨"data", "data", []⟩)])]⟩
      rfl rfl).trans ?_⟩
  decide

/-- C6 evaluation at the failing input: Remove on a missing bucket is a
successful no-op as claimed, but RemoveDirs on the same missing bucket does
not succeed: internalFilelist wraps the bucket-not-exist sentinel before
RemoveDirs compares the error against it by identity, so the comparison can
never fire and the wrapped error escapes to the caller. -/
theorem c6_missing_bucket_eval :
    Remove ⟨[("test", [])]⟩ ⟨"no-bucket", "", none⟩ "a/b"
      = (⟨[("test", [])]⟩, ⟨"no-bucket", "", none⟩, none) ∧
    (RemoveDirs ⟨[("test", [])]⟩ ⟨"no-bucket", "", none⟩ "a/b").2.2
      = some (GErr.wrap (listErrMsg "a/b/" ⟨"no-bucket", "", none⟩ GErr.bucketNotExist)
          GErr.bucketNotExist) := by
  decide

/-- C2 evaluation: with an empty storage root, RemoveDirs removes exactly
the keys under the directory and leaves lexically similar keys; with a
non-empty storage root, the deletion loop joins the root a second time (the
path handed to Remove already starts with it), so the delete happens at a
key that does not exist, the listed object survives, and an error is
returned - refuting the claim for a configured storage root. -/
theorem c2_removeDirs_eval :
    RemoveDirs ⟨[("test", [("a", ⟨"t", "h", []⟩), ("testa", ⟨"t", "h", []⟩),
          ("test/a+1", ⟨"t", "h", []⟩), ("test/a 1", ⟨"t", "h", []⟩)])]⟩
        ⟨"test", "", none⟩ "test"
      = (⟨[("test", [("a", ⟨"t", "h", []⟩), ("testa", ⟨"t", "h", []⟩)])]⟩,
         ⟨"test", "", none⟩, none) ∧
    (RemoveDirs ⟨[("test", [("lala/test/a", ⟨"t", "h", []⟩)])]⟩
        ⟨"test", "lala", none⟩ "test").1
      = ⟨[("test", [("lala/test/a", ⟨"t", "h", []⟩)])]⟩ ∧
    (RemoveDirs ⟨[("test", [("lala/test/a", ⟨"t", "h", []⟩)])]⟩
        ⟨"test", "lala", none⟩ "test").2.2
      = some (GErr.errorf (removeDirsErrMsg "a" ⟨"test", "lala", none⟩
          (GErr.errorf (removeErrMsg "lala/lala/test/a" ⟨"test", "lala", none⟩
            GErr.objectNotExist)))) := by
  refine ⟨by decide, by decide, by decide⟩

/-- A string extended with a slash is never empty. -/
theorem append_slash_ne_empty (a : String) : a ++ "/" ≠ "" := by
  intro h
  have h2 := congrArg String.data h
  rw [String.data_append] at h2
  have h3 : ("/" : String).data = [] := (List.append_eq_nil.mp h2).2
  exact absurd h3 (by decide)

/-- C7 counterexample: when the storage root and the queried prefix are both
empty, the mapped prefix is empty, no slash is appended, and Filelist
returns every object of the bucket, including keys that do not start with
the mapped prefix followed by a slash - refuting the claim as stated for
every queried prefix. -/
theorem c7_filelist_empty_prefix_counterexample :
    (Filelist ⟨[("test", [("a", ⟨"t", "h", []⟩)])]⟩ ⟨"test", "", none⟩ "").2.2
      = Except.ok ["a"] ∧
    startsWithG "a" (goJoin ["", ""] ++ "/") = false := by
  decide

/-- C7 amended: whenever the mapped prefix (storage root joined with the
queried prefix) is non-empty, Filelist returns exactly the objects of the
bucket whose key starts with the mapped prefix followed by a slash, each as
its key with that slashed prefix stripped, and a prefix without matches
yields the empty list rather than an error; an empty mapped prefix instead
lists the whole bucket with unstripped keys. -/
theorem c7_filelist_mapped_root (w : World) (s : PublishedStorage) (qp : String)
    (objs : List (String × Obj))
    (hb : lookupA w.buckets s.bucketName = some objs)
    (hne : goJoin [s.pfx, qp] ≠ "") :
    Filelist w s qp
      = (w, s, Except.ok
          ((objs.filter (fun p => startsWithG p.1 (goJoin [s.pfx, qp] ++ "/"))).map
            (fun p => dropStr p.1 (goJoin [s.pfx, qp] ++ "/").length))) := by
  have hslash := append_slash_ne_empty (goJoin [s.pfx, qp])
  simp [Filelist, internalFilelist, listObjects, hb, hne, hslash, List.map_map,
    Function.comp]

/-- Witness for the amended C7: listing under test returns the stripped key
of test/a and excludes testa. -/
theorem c7_filelist_mapped_root_witness :
    Filelist ⟨[("test", [("test/a", ⟨"t", "h", []⟩), ("testa", ⟨"t", "h", []⟩)])]⟩
        ⟨"test", "", none⟩ "test"
      = (⟨[("test", [("test/a", ⟨"t", "h", []⟩), ("testa", ⟨"t", "h", []⟩)])]⟩,
         ⟨"test", "", none⟩, Except.ok ["a"]) :=
  (c7_filelist_mapped_root ⟨[("test", [("test/a", ⟨"t", "h", []⟩),
      ("testa", ⟨"t", "h", []⟩)])]⟩ ⟨"test", "", none⟩ "test"
    [("test/a", ⟨"t", "h", []⟩), ("testa", ⟨"t", "h", []⟩)] rfl
    (by decide)).trans (by decide)

/-- C8: after a SymLink made successful by the source object being present,
ReadLink at the destination returns the mapped source key and the
destination object holds the source content as of link time; and ReadLink
fails with the information error on any object whose metadata has no
SymLink entry. -/
theorem c8_symlink_readlink_roundtrip (w : World) (s : PublishedStorage) (a b : String)
    (objs : List (String × Obj)) (o : Obj)
    (hb : lookupA w.buckets s.bucketName = some objs)
    (ho : lookupA objs (goJoin [s.pfx, a]) = some o) :
    ((SymLink w s a b).2.2 = none ∧
     (ReadLink (SymLink w s a b).1 (SymLink w s a b).2.1 b).2.2
       = Except.ok (goJoin [s.pfx, a]) ∧
     (lookupObj (SymLink w s a b).1 s.bucketName (goJoin [s.pfx, b])).map Obj.content
       = some o.content) ∧
    (∀ (w2 : World) (s2 : PublishedStorage) (p : String) (o2 : Obj),
       getAttrs w2 s2.bucketName (goJoin [s2.pfx, p]) = Except.ok o2 →
       lookupA o2.metadata "SymLink" = none →
       (ReadLink w2 s2 p).2.2 = Except.error (GErr.errorf (readlinkErrMsg p s2))) := by
  constructor
  · have hmain : SymLink w s a b
        = (⟨insertA (insertA w.buckets s.bucketName (insertA objs (goJoin [s.pfx, b]) o))
             s.bucketName
             (insertA (insertA objs (goJoin [s.pfx, b]) o) (goJoin [s.pfx, b])
               ⟨o.content, o.md5, [("SymLink", goJoin [s.pfx, a])]⟩)⟩, s, none) := by
      simp [SymLink, copy, copyObject, hb, ho, updateMetadata, lookupA_insertA_self]
    rw [hmain]
    refine ⟨rfl, ?_, ?_⟩
    · simp [ReadLink, getAttrs, lookupA_insertA_self, lookupA]
    · simp [lookupObj, lookupA_insertA_self]
  · intro w2 s2 p o2 hattrs hmeta
    simp [ReadLink, hattrs, hmeta]

/-- Witness for C8: round trip at a concrete state, and a ReadLink failure
on an object without the SymLink metadata entry. -/
theorem c8_symlink_readlink_roundtrip_witness :
    ((SymLink ⟨[("test", [("a/b", ⟨"t", "h", []⟩)])]⟩ ⟨"test", "", none⟩
        "a/b" "a/b.link").2.2 = none ∧
     (ReadLink (SymLink ⟨[("test", [("a/b", ⟨"t", "h", []⟩)])]⟩ ⟨"test", "", none⟩
          "a/b" "a/b.link").1
        (SymLink ⟨[("test", [("a/b", ⟨"t", "h", []⟩)])]⟩ ⟨"test", "", none⟩
          "a/b" "a/b.link").2.1 "a/b.link").2.2 = Except.ok "a/b") ∧
    (ReadLink ⟨[("test", [("x", ⟨"t", "h", []⟩)])]⟩ ⟨"test", "", none⟩ "x").2.2
      = Except.error (GErr.errorf (readlinkErrMsg "x" ⟨"test", "", none⟩)) := by
  have h := c8_symlink_readlink_roundtrip ⟨[("test", [("a/b", ⟨"t", "h", []⟩)])]⟩
    ⟨"test", "", none⟩ "a/b" "a/b.link" [("a/b", ⟨"t", "h", []⟩)] ⟨"t", "h", []⟩
    rfl (by decide)
  exact ⟨⟨h.1.1, h.1.2.1.trans (by decide)⟩,
    h.2 ⟨[("test", [("x", ⟨"t", "h", []⟩)])]⟩ ⟨"test", "", none⟩ "x" ⟨"t", "h", []⟩
      (by decide) rfl⟩

/-- C9 counterexample: renaming an object onto itself succeeds and deletes
it, so the destination key (equal to the source key) holds nothing
afterwards - refuting the claim as stated, which promises the former
content at the destination for every pair of paths with an existing
source. -/
theorem c9_renameFile_self_counterexample :
    (RenameFile ⟨[("test", [("x", ⟨"c", "h", []⟩)])]⟩ ⟨"test", "", none⟩ "x" "x").2.2
      = none ∧
    lookupObj (RenameFile ⟨[("test", [("x", ⟨"c", "h", []⟩)])]⟩ ⟨"test", "", none⟩
        "x" "x").1 "test" (goJoin ["", "x"]) = none := by
  decide

/-- C9 amended: for paths whose mapped keys differ, with the source object
present, RenameFile succeeds, the receiver is untouched, the source key no
longer holds an object, and the destination key holds the former source
object (copy-then-delete). -/
theorem c9_renameFile_moves (w : World) (s : PublishedStorage) (a b : String)
    (objs : List (String × Obj)) (o : Obj)
    (hb : lookupA w.buckets s.bucketName = some objs)
    (ho : lookupA objs (goJoin [s.pfx, a]) = some o)
    (hne : goJoin [s.pfx, a] ≠ goJoin [s.pfx, b]) :
    (RenameFile w s a b).2.2 = none ∧
    (RenameFile w s a b).2.1 = s ∧
    lookupObj (RenameFile w s a b).1 s.bucketName (goJoin [s.pfx, a]) = none ∧
    lookupObj (RenameFile w s a b).1 s.bucketName (goJoin [s.pfx, b]) = some o := by
  have hlk : lookupA (insertA objs (goJoin [s.pfx, b]) o) (goJoin [s.pfx, a])
      = some o := by
    rw [lookupA_insertA_ne _ _ _ _ hne, ho]
  have hmain : RenameFile w s a b
      = (⟨insertA (insertA w.buckets s.bucketName (insertA objs (goJoin [s.pfx, b]) o))
           s.bucketName (eraseA (insertA objs (goJoin [s.pfx, b]) o) (goJoin [s.pfx, a]))⟩,
         s, none) := by
    simp [RenameFile, copyObject, hb, ho, deleteObject, lookupA_insertA_self, hlk]
  rw [hmain]
  refine ⟨rfl, rfl, ?_, ?_⟩
  · simp [lookupObj, lookupA_insertA_self, lookupA_eraseA_self]
  · simp only [lookupObj, lookupA_insertA_self]
    rw [lookupA_eraseA_ne _ _ _ (Ne.symm hne), lookupA_insertA_self]

/-- Witness for the amended C9 at a concrete state. -/
theorem c9_renameFile_moves_witness :
    (RenameFile ⟨[("test", [("a/b", ⟨"t", "h", []⟩)])]⟩ ⟨"test", "", none⟩
        "a/b" "b/c").2.2 = none ∧
    lookupObj (RenameFile ⟨[("test", [("a/b", ⟨"t", "h", []⟩)])]⟩ ⟨"test", "", none⟩
        "a/b" "b/c").1 "test" (goJoin ["", "a/b"]) = none ∧
    lookupObj (RenameFile ⟨[("test", [("a/b", ⟨"t", "h", []⟩)])]⟩ ⟨"test", "", none⟩
        "a/b" "b/c").1 "test" (goJoin ["", "b/c"]) = some ⟨"t", "h", []⟩ :=
  ⟨(c9_renameFile_moves ⟨[("test", [("a/b", ⟨"t", "h", []⟩)])]⟩ ⟨"test", "", none⟩
      "a/b" "b/c" [("a/b", ⟨"t", "h", []⟩)] ⟨"t", "h", []⟩ rfl (by decide) (by decide)).1,
   (c9_renameFile_moves ⟨[("test", [("a/b", ⟨"t", "h", []⟩)])]⟩ ⟨"test", "", none⟩
      "a/b" "b/c" [("a/b", ⟨"t", "h", []⟩)] ⟨"t", "h", []⟩ rfl (by decide) (by decide)).2.2.1,
   (c9_renameFile_moves ⟨[("test", [("a/b", ⟨"t", "h", []⟩)])]⟩ ⟨"test", "", none⟩
      "a/b" "b/c" [("a/b", ⟨"t", "h", []⟩)] ⟨"t", "h", []⟩ rfl (by decide) (by decide)).2.2.2⟩

/-- C10: every public operation other than LinkFromPool returns the
receiver - and with it the pathCache - unchanged, in every branch; and the
cache entry surviving a Remove makes a subsequent LinkFromPool at that path
with a matching non-empty checksum succeed without touching the service
state, even though the object was just deleted. -/
theorem c10_pathCache_frame (w : World) (s : PublishedStorage) :
    (∀ p, (MkDir w s p).2.1 = s) ∧
    (∀ (md5hex : String → String) fs p src, (PutFile md5hex w s fs p src).2.1 = s) ∧
    (∀ p, (Remove w s p).2.1 = s) ∧
    (∀ p, (RemoveDirs w s p).2.1 = s) ∧
    (∀ a b, (RenameFile w s a b).2.1 = s) ∧
    (∀ a b, (SymLink w s a b).2.1 = s) ∧
    (∀ a b, (HardLink w s a b).2.1 = s) ∧
    (∀ p, (FileExists w s p).2.1 = s) ∧
    (∀ p, (ReadLink w s p).2.1 = s) ∧
    (∀ p, (Filelist w s p).2.1 = s) ∧
    (∀ (md5hex : String → String) pool dir file sp c force m h,
       s.pathCache = some m →
       lookupA m (goJoin [dir, file]) = some h →
       c.MD5 = h → h ≠ "" →
       LinkFromPool md5hex (Remove w s (goJoin [dir, file])).1
           (Remove w s (goJoin [dir, file])).2.1 pool dir file sp c force
         = ((Remove w s (goJoin [dir, file])).1,
            (Remove w s (goJoin [dir, file])).2.1, none)) := by
  have hsym : ∀ a b, (SymLink w s a b).2.1 = s := by
    intro a b
    simp only [SymLink]
    split
    · rfl
    · split <;> rfl
  refine ⟨fun p => rfl, ?_, fun p => remove_storage_eq w s p, ?_, ?_, hsym,
    fun a b => hsym a b, ?_, ?_, ?_, ?_⟩
  · intro md5hex fs p src
    simp only [PutFile]
    split
    · rfl
    · split <;> rfl
  · intro p
    simp only [RemoveDirs]
    split
    · split <;> rfl
    · exact removeDirsLoop_storage_eq _ _ _ _
  · intro a b
    simp only [RenameFile]
    split
    · rfl
    · split <;> rfl
  · intro p
    simp only [FileExists]
    split
    · split <;> rfl
    · rfl
  · intro p
    simp only [ReadLink]
    split
    · rfl
    · split <;> rfl
  · intro p
    simp only [Filelist]
    split <;> rfl
  · intro md5hex pool dir file sp c force m h hc hl hmd hne
    rw [remove_storage_eq]
    exact lfp_cached_hit md5hex _ s pool dir file sp c force m h hc hl hmd hne

/-- Witness for C10: at a concrete state, Remove deletes the object but a
following LinkFromPool with the still-cached checksum is a successful no-op
on the post-Remove state and the object stays deleted. -/
theorem c10_pathCache_frame_witness :
    LinkFromPool (fun c => c)
        (Remove ⟨[("test", [("d/f", ⟨"t", "h", []⟩)])]⟩
          ⟨"test", "", some [("d/f", "abc")]⟩ (goJoin ["d", "f"])).1
        (Remove ⟨[("test", [("d/f", ⟨"t", "h", []⟩)])]⟩
          ⟨"test", "", some [("d/f", "abc")]⟩ (goJoin ["d", "f"])).2.1
        [] "d" "f" "sp" ⟨"abc"⟩ false
      = (⟨[("test", [])]⟩, ⟨"test", "", some [("d/f", "abc")]⟩, none) :=
  ((c10_pathCache_frame ⟨[("test", [("d/f", ⟨"t", "h", []⟩)])]⟩
      ⟨"test", "", some [("d/f", "abc")]⟩).2.2.2.2.2.2.2.2.2.2
    (fun c => c) [] "d" "f" "sp" ⟨"abc"⟩ false [("d/f", "abc")] "abc"
    rfl (by decide) rfl (by decide)).trans (by decide)

end Gcs
